import Mathlib

/-!
Verification development for the `ReportExporter` export pipeline
(`src/unnamed/part_000`) of the Smart-Report-Generator repository.

Strings are modelled as `List Char` (`Str`): the TypeScript code only ever
concatenates, searches and slices strings, and `List Char` makes every
operation structurally recursive and kernel-computable.  JavaScript numbers
that are used as counts/indices are modelled as `ℕ`, section `order` values
and timestamps as `ℤ`, and the scaled bitmap height of the PDF renderer as
`ℚ` (it is a ratio of pixel sizes in the source).

Environment-dependent primitives are modelled as explicit parameters:
`Date#toLocaleDateString` as a function `ld : Str → Str`, the current date
(`new Date().toLocaleDateString()`) as a `now : Str` argument, date parsing
(`Date#getTime`) as `toTime : Str → ℤ` and ISO formatting as
`fromIso : ℤ → Str`.  The browser download / rasterization side effects are
outside the modelled dataflow; the functions below are the pure string /
state computations the source performs.
-/

abbrev Str := List Char

/-- The set of whitespace characters removed by `String.prototype.trim`
restricted to the ASCII range plus NBSP and the BOM (the further Unicode
space characters are not exercised by any claim). -/
def jsWhitespaceChar (c : Char) : Bool :=
  c = ' ' || c = '\t' || c = '\n' || c = '\r' ||
  c = Char.ofNat 11 || c = Char.ofNat 12 || c = Char.ofNat 160 || c = Char.ofNat 65279

/-- Model of `String.prototype.trim`: drop leading and trailing whitespace. -/
def jsTrim (s : Str) : Str :=
  ((s.dropWhile jsWhitespaceChar).reverse.dropWhile jsWhitespaceChar).reverse

/-- JavaScript truthiness of a string: every string except `""` is truthy. -/
def strTruthy (s : Str) : Bool := !s.isEmpty

/-- JavaScript truthiness of an optional string (`undefined` and `""` are falsy). -/
def optStrTruthy : Option Str → Bool
  | some s => strTruthy s
  | none => false

/-- The `ReportData` interface (source lines 7-19). -/
structure ReportData where
  _id : Str
  title : Str
  report_type : Str
  content : Str
  summary : Str
  highlights : Str
  suggestions : Str
  generated_at : Str
  period_start : Option Str := none
  period_end : Option Str := none
  record_count : Option ℤ := none
deriving DecidableEq

/-- One entry of `ExportTemplate.sections.customSections`. -/
structure CustomSection where
  id : Str
  title : Str
  content : Str
  order : ℤ
deriving DecidableEq

/-- One entry of `ExportTemplate.variables`. -/
structure TemplateVariable where
  name : Str
  defaultValue : Str
deriving DecidableEq

/-- The header configuration of `ExportTemplate`; only the fields read by the
modelled renderers are carried (the purely visual fields - colors, height,
alignment, logo - are consumed by renderers outside the modelled dataflow). -/
structure HeaderCfg where
  enabled : Bool
  content : Str
  showDate : Bool
deriving DecidableEq

/-- The footer configuration of `ExportTemplate` (fields read by the modelled
renderers). -/
structure FooterCfg where
  enabled : Bool
  content : Str
  showGeneratedBy : Bool
  companyName : Option Str := none
deriving DecidableEq

/-- The `sections` configuration of `ExportTemplate`. -/
structure SectionsCfg where
  showExecutiveSummary : Bool
  showHighlights : Bool
  showDetailedContent : Bool
  showRecommendations : Bool
  customSections : List CustomSection
deriving DecidableEq

/-- The `ExportTemplate` interface (declared in the template-manager
component), restricted to the fields the modelled functions read. -/
structure ExportTemplate where
  header : HeaderCfg
  footer : FooterCfg
  sections : SectionsCfg
  vars : List TemplateVariable
deriving DecidableEq

/-- First index `≥ idx` at which `pat` occurs in the suffix `s` (`s` is the
original string with `idx` characters already removed); mirrors the scan a
global regex performs from `lastIndex`. -/
def findAt (pat : Str) : Str → ℕ → Option ℕ
  | s, idx =>
    if pat.isPrefixOf s then some idx
    else
      match s with
      | [] => none
      | _ :: t => findAt pat t (idx + 1)

/-- The `GetSubstitution` replacement-text semantics of
`String.prototype.replace` for a pattern with no capture groups: in the
replacement string, `$$` yields `$`, `$&` the matched text, a `$`-backquote
the part of the original string before the match, `$`-quote the part after
it, and every other `$`-sequence is literal.  `matched` is the literal
pattern, `pre`/`post` the surrounding parts of the whole original string. -/
def expandRepl (matched pre post : Str) : Str → Str
  | [] => []
  | c :: rest =>
    if c = '$' then
      match rest with
      | [] => ['$']
      | d :: rest2 =>
        if d = '$' then '$' :: expandRepl matched pre post rest2
        else if d = '&' then matched ++ expandRepl matched pre post rest2
        else if d = Char.ofNat 96 then pre ++ expandRepl matched pre post rest2
        else if d = Char.ofNat 39 then post ++ expandRepl matched pre post rest2
        else '$' :: d :: expandRepl matched pre post rest2
    else c :: expandRepl matched pre post rest

/-- Worker for `replaceAllJs`: repeatedly find the next occurrence of `pat`
at or after position `i` of `orig` and splice in the expanded replacement.
The fuel argument only bounds the recursion; `orig.length + 1` steps always
suffice because each found occurrence advances `i` by `pat.length ≥ 1`. -/
def replaceAllGo (orig pat rep : Str) : ℕ → ℕ → Str
  | 0, i => orig.drop i
  | fuel + 1, i =>
    match findAt pat (orig.drop i) i with
    | none => orig.drop i
    | some j =>
      ((orig.drop i).take (j - i)) ++
        expandRepl pat (orig.take j) (orig.drop (j + pat.length)) rep ++
        replaceAllGo orig pat rep fuel (j + pat.length)

/-- Model of `orig.replace(new RegExp(pat, 'g'), rep)` for a pattern that the
regex engine treats literally.  The patterns built by `replaceVariables`
always start with a brace so the empty-pattern case never arises; it is
mapped to the identity. -/
def replaceAllJs (orig pat rep : Str) : Str :=
  if pat.isEmpty then orig else replaceAllGo orig pat rep (orig.length + 1) 0

/-- Model of `ReportExporter.replaceVariables` (source lines 658-665): one
global replace per variable, applied in list order, each pass running over
the accumulated result of the previous passes. -/
def replaceVariables (content : Str) (vs : List TemplateVariable) : Str :=
  vs.foldl
    (fun result v =>
      replaceAllJs result ("\x7b".toList ++ v.name ++ "\x7d".toList) v.defaultValue)
    content

/-- Worker for `literalReplaceAll`: identical recursion to `replaceAllGo`
but the replacement string is inserted verbatim. -/
def literalReplaceGo (orig pat rep : Str) : ℕ → ℕ → Str
  | 0, i => orig.drop i
  | fuel + 1, i =>
    match findAt pat (orig.drop i) i with
    | none => orig.drop i
    | some j =>
      ((orig.drop i).take (j - i)) ++ rep ++ literalReplaceGo orig pat rep fuel (j + pat.length)

/-- Replacement of every occurrence of `pat` in `orig` by the verbatim
string `rep` (no `$`-escape expansion). -/
def literalReplaceAll (orig pat rep : Str) : Str :=
  if pat.isEmpty then orig else literalReplaceGo orig pat rep (orig.length + 1) 0

/-- Spec-side definition following the words of spec §4.1 as far as
sequencing goes: for each variable in list order, every literal occurrence of
its brace-wrapped name is replaced by its `defaultValue`, inserted verbatim. -/
def literalSubstitute (content : Str) (vs : List TemplateVariable) : Str :=
  vs.foldl
    (fun result v =>
      literalReplaceAll result ("\x7b".toList ++ v.name ++ "\x7d".toList) v.defaultValue)
    content

/-- First variable of `vars` whose brace-wrapped name is a prefix of `s`. -/
def findVarAt (vars : List TemplateVariable) (s : Str) : Option TemplateVariable :=
  vars.find? (fun v => ("\x7b".toList ++ v.name ++ "\x7d".toList).isPrefixOf s)

/-- Worker for `specSinglePassSubstitute`; the fuel only bounds the
recursion (every step consumes at least one input character). -/
def specSinglePassGo (vars : List TemplateVariable) : ℕ → Str → Str
  | 0, s => s
  | _, [] => []
  | fuel + 1, c :: rest =>
    match findVarAt vars (c :: rest) with
    | some v => v.defaultValue ++ specSinglePassGo vars fuel ((c :: rest).drop (v.name.length + 2))
    | none => c :: specSinglePassGo vars fuel rest

/-- Spec-side definition following the words of claim C4: a genuinely
single-pass substitution - the text is scanned once left to right, each
placeholder of a listed variable is replaced by its `defaultValue`, and
inserted values are never rescanned, regardless of variable order. -/
def specSinglePassSubstitute (vars : List TemplateVariable) (s : Str) : Str :=
  specSinglePassGo vars (s.length + 1) s

/-- Ascending-by-`order` relation on custom sections. -/
def customLe (a b : CustomSection) : Prop := a.order ≤ b.order

instance : DecidableRel customLe := fun a b => by
  unfold customLe
  infer_instance

/-- Model of `customSections.sort((a, b) => a.order - b.order)`: the stable
ascending sort by `order` that ES2019+ `Array.prototype.sort` guarantees
with that comparator.  Insertion sort is used because it is the stable
sorting algorithm that reduces inside the kernel; stable sorts agree on
their output, so this equals the engine's (merge-sort based) result. -/
def sortCustoms (l : List CustomSection) : List CustomSection :=
  List.insertionSort customLe l

/-- Model of `ReportExporter.generateTemplatedMarkdown` (source lines
380-448).  `ld` models `Date#toLocaleDateString` on a stored date string and
`now` models `new Date().toLocaleDateString()`, the current date.  The
sequential `markdown += ...` statements of the source become one
concatenation in the same order. -/
def generateTemplatedMarkdown (ld : Str → Str) (r : ReportData) (t : ExportTemplate)
    (now : Str) : Str :=
  let periodInfo : Str :=
    if optStrTruthy r.period_start && optStrTruthy r.period_end then
      ("**Period:** ".toList) ++ ld (r.period_start.getD []) ++ (" - ".toList) ++
        ld (r.period_end.getD []) ++ ("\n\n".toList)
    else []
  let headerPart : Str :=
    if t.header.enabled then
      let headerContent := replaceVariables t.header.content t.vars
      let headerWithDate :=
        if t.header.showDate then headerContent ++ (" | ".toList) ++ now else headerContent
      ("---\n**".toList) ++ headerWithDate ++ ("**\n---\n\n".toList)
    else []
  let titlePart : Str := ("# ".toList) ++ r.title ++ ("\n\n".toList)
  let metaPart : Str :=
    ("**Report Type:** ".toList) ++ r.report_type ++ ("  \n".toList) ++
      ("**Generated:** ".toList) ++ ld r.generated_at ++ ("  \n".toList) ++
      (if strTruthy periodInfo then periodInfo else []) ++ ("\n".toList)
  let summaryPart : Str :=
    if t.sections.showExecutiveSummary then
      ("## Executive Summary\n\n".toList) ++ r.summary ++ ("\n\n".toList)
    else []
  let highlightsPart : Str :=
    if t.sections.showHighlights then
      ("## Key Highlights\n\n".toList) ++ r.highlights ++ ("\n\n".toList)
    else []
  let contentPart : Str :=
    if t.sections.showDetailedContent then
      ("## Detailed Report\n\n".toList) ++ r.content ++ ("\n\n".toList)
    else []
  let recommendationsPart : Str :=
    if t.sections.showRecommendations then
      ("## Recommendations & Next Steps\n\n".toList) ++ r.suggestions ++ ("\n\n".toList)
    else []
  let customPart : Str :=
    (sortCustoms t.sections.customSections).flatMap
      (fun s => ("## ".toList) ++ s.title ++ ("\n\n".toList) ++ s.content ++ ("\n\n".toList))
  let footerPart : Str :=
    if t.footer.enabled then
      let footerContent := replaceVariables t.footer.content t.vars
      let generatedBy :=
        if t.footer.showGeneratedBy then
          (" | Generated by ".toList) ++
            (if optStrTruthy t.footer.companyName then t.footer.companyName.getD []
             else ("Smart Report Generator".toList))
        else []
      ("---\n*".toList) ++ footerContent ++ generatedBy ++ ("*\n".toList)
    else ("---\n*Generated by Smart Report Generator*\n".toList)
  headerPart ++ titlePart ++ metaPart ++ summaryPart ++ highlightsPart ++ contentPart ++
    recommendationsPart ++ customPart ++ footerPart

/-- Model of `ReportExporter.generateMarkdown` (source lines 667-697), the
template-free markdown renderer; it reads no ambient clock. -/
def generateMarkdown (ld : Str → Str) (r : ReportData) : Str :=
  let periodInfo : Str :=
    if optStrTruthy r.period_start && optStrTruthy r.period_end then
      ("**Period:** ".toList) ++ ld (r.period_start.getD []) ++ (" - ".toList) ++
        ld (r.period_end.getD []) ++ ("\n\n".toList)
    else []
  ("# ".toList) ++ r.title ++ ("\n\n**Report Type:** ".toList) ++ r.report_type ++
    ("  \n**Generated:** ".toList) ++ ld r.generated_at ++ ("  \n".toList) ++ periodInfo ++
    ("\n\n## Executive Summary\n\n".toList) ++ r.summary ++
    ("\n\n## Key Highlights\n\n".toList) ++ r.highlights ++
    ("\n\n## Detailed Report\n\n".toList) ++ r.content ++
    ("\n\n## Recommendations & Next Steps\n\n".toList) ++ r.suggestions ++
    ("\n\n---\n*Generated by Smart Report Generator*\n".toList)

/-- State-passing view of `generateTemplatedMarkdown`: the source calls
`template.sections.customSections.sort(...)`, which sorts the caller's array
in place, so the call returns the markdown string together with the
post-call states of the template and of the report (the report is never
written to by the renderer, so it is returned unchanged). -/
def generateTemplatedMarkdownSt (ld : Str → Str) (r : ReportData) (t : ExportTemplate)
    (now : Str) : Str × ExportTemplate × ReportData :=
  (generateTemplatedMarkdown ld r t now,
    { t with sections := { t.sections with customSections := sortCustoms t.sections.customSections } },
    r)

/-- Models the template-state effect of
`ReportExporter.generateTemplatedReportHTML` (source lines 450-656): at lines
616-617 the renderer calls `template.sections.customSections.sort(...)`, an
in-place ascending sort by `order`, and it performs no other write - in
particular none to the report.  The produced HTML string is elided: no claim
concerns it, and its construction is pure string interpolation. -/
def generateTemplatedReportHTMLSt (r : ReportData) (t : ExportTemplate) :
    ExportTemplate × ReportData :=
  ({ t with sections := { t.sections with customSections := sortCustoms t.sections.customSections } },
    r)

/-- The part of the templated markdown before the four fixed sections:
optional header block, title heading and metadata lines (source lines
385-405).  Introduced for the structural decomposition theorem of claim C8. -/
def mdPreamble (ld : Str → Str) (r : ReportData) (t : ExportTemplate) (now : Str) : Str :=
  let periodInfo : Str :=
    if optStrTruthy r.period_start && optStrTruthy r.period_end then
      ("**Period:** ".toList) ++ ld (r.period_start.getD []) ++ (" - ".toList) ++
        ld (r.period_end.getD []) ++ ("\n\n".toList)
    else []
  (if t.header.enabled then
    ("---\n**".toList) ++
      (if t.header.showDate then
        replaceVariables t.header.content t.vars ++ (" | ".toList) ++ now
       else replaceVariables t.header.content t.vars) ++ ("**\n---\n\n".toList)
   else []) ++
  ("# ".toList) ++ r.title ++ ("\n\n".toList) ++
  ("**Report Type:** ".toList) ++ r.report_type ++ ("  \n".toList) ++
  ("**Generated:** ".toList) ++ ld r.generated_at ++ ("  \n".toList) ++
  (if strTruthy periodInfo then periodInfo else []) ++ ("\n".toList)

/-- The four fixed sections of the templated markdown, each present exactly
when its template toggle is true, in the fixed source order (source lines
407-422). -/
def mdFixedSections (r : ReportData) (t : ExportTemplate) : Str :=
  (if t.sections.showExecutiveSummary then
    ("## Executive Summary\n\n".toList) ++ r.summary ++ ("\n\n".toList)
   else []) ++
  (if t.sections.showHighlights then
    ("## Key Highlights\n\n".toList) ++ r.highlights ++ ("\n\n".toList)
   else []) ++
  (if t.sections.showDetailedContent then
    ("## Detailed Report\n\n".toList) ++ r.content ++ ("\n\n".toList)
   else []) ++
  (if t.sections.showRecommendations then
    ("## Recommendations & Next Steps\n\n".toList) ++ r.suggestions ++ ("\n\n".toList)
   else [])

/-- The custom-sections block of the templated markdown: the template's
custom sections sorted ascending by `order`, each rendered as a level-2
section (source lines 424-429). -/
def mdCustomBlock (t : ExportTemplate) : Str :=
  (sortCustoms t.sections.customSections).flatMap
    (fun s => ("## ".toList) ++ s.title ++ ("\n\n".toList) ++ s.content ++ ("\n\n".toList))

/-- The footer block of the templated markdown (source lines 431-445). -/
def mdFooterBlock (t : ExportTemplate) : Str :=
  if t.footer.enabled then
    ("---\n*".toList) ++ replaceVariables t.footer.content t.vars ++
      (if t.footer.showGeneratedBy then
        (" | Generated by ".toList) ++
          (if optStrTruthy t.footer.companyName then t.footer.companyName.getD []
           else ("Smart Report Generator".toList))
       else []) ++ ("*\n".toList)
  else ("---\n*Generated by Smart Report Generator*\n".toList)

/-- The per-report pass of `validateReportsForExport` (the `reports.forEach`
at source lines 874-882), carrying the running index: a report with a
blank/whitespace-only title contributes `Report {index+1} has no title`, one
with blank/whitespace-only content contributes
`Report "{title}" has no content`. -/
def perReportErrors : ℕ → List ReportData → List Str
  | _, [] => []
  | i, r :: rest =>
    (if (jsTrim r.title).isEmpty then
      [("Report ".toList) ++ (Nat.repr (i + 1)).toList ++ (" has no title".toList)]
     else []) ++
    (if (jsTrim r.content).isEmpty then
      [("Report \"".toList) ++ r.title ++ ("\" has no content".toList)]
     else []) ++
    perReportErrors (i + 1) rest

/-- Model of `ReportExporter.validateReportsForExport` (source lines
863-885): a list of human-readable problems, never a thrown error. -/
def validateReportsForExport (reports : List ReportData) : List Str :=
  (if reports.length = 0 then [("No reports selected for export".toList)] else []) ++
  (if reports.length > 50 then
    [("Too many reports selected. Maximum 50 reports allowed per batch".toList)]
   else []) ++
  perReportErrors 0 reports

/-- Consecutive chunks of size `bs` produced by the loop
`for (let i = 0; i < reports.length; i += batchSize)` with
`reports.slice(i, i + batchSize)` (source lines 758-759).  For `bs = 0` the
source loop never terminates; the model returns `[]` there and every theorem
assumes `1 ≤ bs` (the source default is 5). -/
def chunks (bs : ℕ) (l : List ReportData) : List (List ReportData) :=
  if h : l.isEmpty ∨ bs = 0 then []
  else l.take bs :: chunks bs (l.drop bs)
termination_by l.length
decreasing_by
  push_neg at h
  obtain ⟨h1, h2⟩ := h
  simp [List.isEmpty_iff] at h1
  have : 0 < l.length := List.length_pos.mpr h1
  simp [List.length_drop]
  omega

/-- The accumulator of `batchExport` (source lines 751-755) together with
the sequence of `onError` invocations: `successful`/`failed`/`errors` mirror
the `BatchExportResult` fields, and `onErrorCalls` records the report id
passed to each `onError?.(report._id, ...)` call (source line 800), whether
or not a callback was supplied. -/
structure BatchRunState where
  successful : ℕ
  failed : ℕ
  errors : List (Str × Str)
  onErrorCalls : List Str
deriving DecidableEq

/-- The per-report task body of `batchExport` (source lines 762-802), with
the outcome of the underlying single export abstracted as
`doExport : ReportData → Except Str Unit` (`Except.error m` models the
caught exception with message `m`).  On success the shared `successful`
counter is incremented; on failure the `failed` counter is incremented,
`{reportId, error}` is appended to the shared errors list and `onError` is
invoked with the report's id.  The failure is contained inside the task. -/
def processReport (doExport : ReportData → Except Str Unit) (st : BatchRunState)
    (r : ReportData) : BatchRunState :=
  match doExport r with
  | Except.ok _ => { st with successful := st.successful + 1 }
  | Except.error m =>
    { st with
        failed := st.failed + 1
        errors := st.errors ++ [(r._id, m)]
        onErrorCalls := st.onErrorCalls ++ [r._id] }

/-- Model of `ReportExporter.batchExport` (source lines 738-809): the
reports are partitioned into consecutive chunks of `bs`, the chunks are
processed in sequence, and inside a chunk each report's task updates the
shared accumulator exactly once (success or failure).  The source runs a
chunk's tasks concurrently on the event loop; each task performs exactly one
accumulator update, so the final counters and the multiset of errors equal
those of this sequential fold (completion order inside a chunk, which no
claim depends on, is the only thing it can permute).  The function always
returns an accumulated result - no per-item failure escapes the per-task
`catch`. -/
def batchExport (doExport : ReportData → Except Str Unit) (bs : ℕ)
    (reports : List ReportData) : BatchRunState :=
  (chunks bs reports).foldl
    (fun st batch => batch.foldl (processReport doExport) st)
    ⟨0, 0, [], []⟩

/-- The page-emitting loop of `ReportExporter.exportToPDF` (source lines
87-92): iterations of `while (heightLeft >= 0) { pdf.addPage(); heightLeft
-= pageHeight; }` with `pageHeight = 295`, counting one page per iteration.
`hl` is the value of `heightLeft` when the loop is reached. -/
def pdfPageLoop (hl : ℚ) : ℕ :=
  if h : 0 ≤ hl then 1 + pdfPageLoop (hl - 295) else 0
termination_by (Int.floor (hl / 295) + 1).toNat
decreasing_by
  have h1 : (0 : ℚ) ≤ hl / 295 := by positivity
  have h2 : Int.floor ((hl - 295) / 295) = Int.floor (hl / 295) - 1 := by
    rw [sub_div, div_self (by norm_num : (295 : ℚ) ≠ 0)]
    exact Int.floor_sub_one _
  rw [h2]
  have h3 : 0 ≤ Int.floor (hl / 295) := Int.floor_nonneg.mpr h1
  omega

/-- Total number of pages emitted by `exportToPDF` for a scaled bitmap
height `h` (the `imgHeight` of source line 80, in millimetres): one page is
always added before the loop (source line 84), `heightLeft` starts at
`imgHeight` and is decremented by the page height before the loop is entered
(source lines 81, 85). -/
def pdfPages (h : ℚ) : ℕ :=
  1 + pdfPageLoop (h - 295)

/-- JSON values as produced by `JSON.parse`.  A numeric literal is kept in
its decimal component form (sign, integer digits value, fraction digit
characters, exponent sign and value): `JSON.parse` converts the lexeme to a
binary float, but no claim inspects a numeric value, so float rounding is
deliberately not modelled. -/
inductive Json where
  | jnull : Json
  | jbool (b : Bool) : Json
  | jnum (neg : Bool) (ip : ℕ) (frac : Str) (expNeg : Bool) (ev : ℕ) : Json
  | jstr (s : Str) : Json
  | jarr (xs : List Json) : Json
  | jobj (members : List (Str × Json)) : Json

/-- The insignificant-whitespace characters of the JSON grammar. -/
def isJsonWs (c : Char) : Bool := c = ' ' || c = '\t' || c = '\n' || c = '\r'

/-- Model of insignificant-whitespace skipping in `JSON.parse`. -/
def skipWs (s : Str) : Str := s.dropWhile isJsonWs

/-- ASCII decimal digit test. -/
def isDigitChar (c : Char) : Bool := '0' ≤ c && c ≤ '9'

/-- Value of a hexadecimal digit, if `c` is one. -/
def hexVal (c : Char) : Option ℕ :=
  if '0' ≤ c && c ≤ '9' then some (c.toNat - 48)
  else if 'a' ≤ c && c ≤ 'f' then some (c.toNat - 87)
  else if 'A' ≤ c && c ≤ 'F' then some (c.toNat - 70)
  else none

/-- Numeric value of a string of decimal digits. -/
def digitsToNat (s : Str) : ℕ := s.foldl (fun a c => a * 10 + (c.toNat - 48)) 0

/-- Lookahead for the low half of a `\uXXXX` surrogate pair: if `s` starts
with an escape `\uXXXX` whose code is a low surrogate, return that code and
the input after it. -/
def lowSurrogateAt (s : Str) : Option (ℕ × Str) :=
  match s with
  | e2 :: u2 :: g1 :: g2 :: g3 :: g4 :: rest4 =>
    if e2 = '\\' ∧ u2 = 'u' then
      match hexVal g1, hexVal g2, hexVal g3, hexVal g4 with
      | some a2, some b2, some c2, some d2 =>
        let m := ((a2 * 16 + b2) * 16 + c2) * 16 + d2
        if 56320 ≤ m ∧ m ≤ 57343 then some (m, rest4) else none
      | _, _, _, _ => none
    else none
  | _ => none

/-- Body of a JSON string literal, after the opening quote: returns the
decoded characters and the input remaining after the closing quote.  The
fuel argument only bounds the recursion (each step consumes at least one
input character, so `length + 1` steps always suffice); callers pass
`s.length + 1`.
Escape sequences follow the JSON grammar; a `\uXXXX` high surrogate
followed by a low surrogate is combined into one code point; a lone
surrogate (legal for `JSON.parse`, which yields a lone UTF-16 unit) has no
`Char` counterpart and goes through `Char.ofNat`, which maps it to NUL - no
claim exercises lone surrogates.  Unescaped control characters are a parse
error, as in the JSON grammar. -/
def parseStringBody : ℕ → Str → Option (Str × Str)
  | 0, _ => none
  | _, [] => none
  | fuel + 1, c :: rest =>
    if c = '"' then some ([], rest)
    else if c = '\\' then
      match rest with
      | [] => none
      | e :: rest2 =>
        if e = '"' ∨ e = '\\' ∨ e = '/' then
          match parseStringBody fuel rest2 with
          | some (s, r) => some (e :: s, r)
          | none => none
        else if e = 'b' ∨ e = 'f' ∨ e = 'n' ∨ e = 'r' ∨ e = 't' then
          let d : Char :=
            if e = 'b' then Char.ofNat 8
            else if e = 'f' then Char.ofNat 12
            else if e = 'n' then Char.ofNat 10
            else if e = 'r' then Char.ofNat 13
            else Char.ofNat 9
          match parseStringBody fuel rest2 with
          | some (s, r) => some (d :: s, r)
          | none => none
        else if e = 'u' then
          match rest2 with
          | h1 :: h2 :: h3 :: h4 :: rest3 =>
            match hexVal h1, hexVal h2, hexVal h3, hexVal h4 with
            | some a, some b, some c1, some d1 =>
              let n := ((a * 16 + b) * 16 + c1) * 16 + d1
              if 55296 ≤ n ∧ n ≤ 56319 then
                match lowSurrogateAt rest3 with
                | some (m, rest4) =>
                  match parseStringBody fuel rest4 with
                  | some (s, r) =>
                    some (Char.ofNat (65536 + (n - 55296) * 1024 + (m - 56320)) :: s, r)
                  | none => none
                | none =>
                  match parseStringBody fuel rest3 with
                  | some (s, r) => some (Char.ofNat n :: s, r)
                  | none => none
              else
                match parseStringBody fuel rest3 with
                | some (s, r) => some (Char.ofNat n :: s, r)
                | none => none
            | _, _, _, _ => none
          | _ => none
        else none
    else if c.toNat < 32 then none
    else
      match parseStringBody fuel rest with
      | some (s, r) => some (c :: s, r)
      | none => none

/-- A JSON numeric literal at the head of `s`: optional minus, integer part
with no superfluous leading zero, optional fraction (digits required),
optional exponent (digits required, leading zeros allowed). -/
def parseNumber (s : Str) : Option (Json × Str) :=
  let (neg, s1) : Bool × Str :=
    match s with
    | c :: t => if c = '-' then (true, t) else (false, s)
    | [] => (false, s)
  let intDigits := s1.takeWhile isDigitChar
  let s2 := s1.dropWhile isDigitChar
  if intDigits.isEmpty then none
  else if intDigits.length > 1 ∧ intDigits.head? = some '0' then none
  else
    let fracStep : Option (Str × Str) :=
      match s2 with
      | c :: t =>
        if c = '.' then
          let fd := t.takeWhile isDigitChar
          if fd.isEmpty then none else some (fd, t.dropWhile isDigitChar)
        else some ([], s2)
      | [] => some ([], s2)
    match fracStep with
    | none => none
    | some (fracDigits, s3) =>
      let expStep : Option (Bool × ℕ × Str) :=
        match s3 with
        | c :: t =>
          if c = 'e' ∨ c = 'E' then
            let (en, t2) : Bool × Str :=
              match t with
              | d :: t3 =>
                if d = '-' then (true, t3) else if d = '+' then (false, t3) else (false, t)
              | [] => (false, t)
            let ed := t2.takeWhile isDigitChar
            if ed.isEmpty then none
            else some (en, digitsToNat ed, t2.dropWhile isDigitChar)
          else some (false, 0, s3)
        | [] => some (false, 0, s3)
      match expStep with
      | none => none
      | some (expNeg, ev, s4) =>
        some (Json.jnum neg (digitsToNat intDigits) fracDigits expNeg ev, s4)

mutual

/-- Recursive-descent model of `JSON.parse`'s value grammar: returns the
parsed value and the remaining input.  The fuel bounds the recursion depth;
`parseJson` supplies more fuel than any input of that length can consume. -/
def parseValue : ℕ → Str → Option (Json × Str)
  | 0, _ => none
  | fuel + 1, s =>
    let s1 := skipWs s
    match s1 with
    | [] => none
    | c :: rest =>
      if c = '"' then
        match parseStringBody (rest.length + 1) rest with
        | some (str, r) => some (Json.jstr str, r)
        | none => none
      else if c = '[' then
        match parseArrayRest fuel rest with
        | some (xs, r) => some (Json.jarr xs, r)
        | none => none
      else if c = Char.ofNat 123 then
        match parseObjRest fuel rest with
        | some (ms, r) => some (Json.jobj ms, r)
        | none => none
      else if ("true".toList).isPrefixOf s1 then some (Json.jbool true, s1.drop 4)
      else if ("false".toList).isPrefixOf s1 then some (Json.jbool false, s1.drop 5)
      else if ("null".toList).isPrefixOf s1 then some (Json.jnull, s1.drop 4)
      else parseNumber s1

/-- The contents of a JSON array, entered just after `[`. -/
def parseArrayRest : ℕ → Str → Option (List Json × Str)
  | 0, _ => none
  | fuel + 1, s =>
    match skipWs s with
    | ']' :: r => some ([], r)
    | _ => parseElemsLoop fuel s

/-- One or more comma-separated array elements followed by `]`. -/
def parseElemsLoop : ℕ → Str → Option (List Json × Str)
  | 0, _ => none
  | fuel + 1, s =>
    match parseValue fuel s with
    | none => none
    | some (v, r) =>
      match skipWs r with
      | ']' :: r2 => some ([v], r2)
      | c :: r2 =>
        if c = ',' then
          match parseElemsLoop fuel r2 with
          | some (vs, r3) => some (v :: vs, r3)
          | none => none
        else none
      | [] => none

/-- The contents of a JSON object, entered just after the opening brace. -/
def parseObjRest : ℕ → Str → Option (List (Str × Json) × Str)
  | 0, _ => none
  | fuel + 1, s =>
    match skipWs s with
    | c :: r => if c = Char.ofNat 125 then some ([], r) else parseMembersLoop fuel s
    | [] => none

/-- One or more comma-separated `"key": value` members followed by the
closing brace. -/
def parseMembersLoop : ℕ → Str → Option (List (Str × Json) × Str)
  | 0, _ => none
  | fuel + 1, s =>
    match skipWs s with
    | c :: r =>
      if c = '"' then
        match parseStringBody (r.length + 1) r with
        | none => none
        | some (key, r2) =>
          match skipWs r2 with
          | d :: r3 =>
            if d = ':' then
              match parseValue fuel r3 with
              | none => none
              | some (v, r4) =>
                match skipWs r4 with
                | e :: r5 =>
                  if e = Char.ofNat 125 then some ([(key, v)], r5)
                  else if e = ',' then
                    match parseMembersLoop fuel r5 with
                    | some (ms, r6) => some ((key, v) :: ms, r6)
                    | none => none
                  else none
                | [] => none
            else none
          | [] => none
      else none
    | [] => none

end

/-- Model of `JSON.parse(s)`: `some v` when the whole input is one JSON
value (with surrounding whitespace), `none` when `JSON.parse` throws. -/
def parseJson (s : Str) : Option Json :=
  match parseValue (3 * s.length + 3) s with
  | some (v, rest) => if (skipWs rest).isEmpty then some v else none
  | none => none

/-- JSON string-character escaping as performed by `JSON.stringify`: quote
and backslash get a backslash escape, the named control characters their
short escapes, the remaining control characters a `\u00XX` escape, and
everything else is emitted verbatim. -/
def escapeJsonChar (c : Char) : Str :=
  if c = '"' then ("\\\"".toList)
  else if c = '\\' then ("\\\\".toList)
  else if c = Char.ofNat 8 then ("\\b".toList)
  else if c = Char.ofNat 12 then ("\\f".toList)
  else if c = Char.ofNat 10 then ("\\n".toList)
  else if c = Char.ofNat 13 then ("\\r".toList)
  else if c = Char.ofNat 9 then ("\\t".toList)
  else if c.toNat < 32 then
    ("\\u00".toList) ++
      [(if c.toNat / 16 < 10 then Char.ofNat (48 + c.toNat / 16) else Char.ofNat (87 + c.toNat / 16)),
       (if c.toNat % 16 < 10 then Char.ofNat (48 + c.toNat % 16) else Char.ofNat (87 + c.toNat % 16))]
  else [c]

mutual

/-- Model of `JSON.stringify` on parsed values (no indentation argument).
Numbers are re-emitted from their stored decimal components rather than
through JavaScript float formatting - no claim serializes a number. -/
def stringifyJson : Json → Str
  | Json.jnull => ("null".toList)
  | Json.jbool true => ("true".toList)
  | Json.jbool false => ("false".toList)
  | Json.jnum neg ip frac expNeg ev =>
    (if neg then ['-'] else []) ++ (Nat.repr ip).toList ++
      (if frac.isEmpty then [] else '.' :: frac) ++
      (if ev = 0 ∧ expNeg = false then []
       else 'e' :: ((if expNeg then ['-'] else []) ++ (Nat.repr ev).toList))
  | Json.jstr s => '"' :: s.flatMap escapeJsonChar ++ ['"']
  | Json.jarr xs => '[' :: stringifyArr xs ++ [']']
  | Json.jobj ms => Char.ofNat 123 :: stringifyObj ms ++ [Char.ofNat 125]

/-- Comma-separated serialization of array elements. -/
def stringifyArr : List Json → Str
  | [] => []
  | [x] => stringifyJson x
  | x :: y :: xs => stringifyJson x ++ ',' :: stringifyArr (y :: xs)

/-- Comma-separated serialization of object members, keys in order. -/
def stringifyObj : List (Str × Json) → Str
  | [] => []
  | [(k, v)] => '"' :: k.flatMap escapeJsonChar ++ ['"', ':'] ++ stringifyJson v
  | (k, v) :: m :: ms =>
    '"' :: k.flatMap escapeJsonChar ++ ['"', ':'] ++ stringifyJson v ++ ',' :: stringifyObj (m :: ms)

end

/-- JavaScript truthiness of a parsed JSON value (`filter(Boolean)`):
`null`, `false`, numeric zero and the empty string are falsy; arrays and
objects are always truthy. -/
def jsTruthy : Json → Bool
  | Json.jnull => false
  | Json.jbool b => b
  | Json.jnum _ ip frac _ _ => !(ip = 0 && frac.all (fun c => c = '0'))
  | Json.jstr s => !s.isEmpty
  | Json.jarr _ => true
  | Json.jobj _ => true

/-- The contribution of one report to the flattened highlights sequence
(source lines 918-925): `JSON.parse` the highlights field, falling back to a
one-element array holding the raw string when parsing throws; the `.flat()`
then splices a parsed array one level and keeps any other value whole. -/
def highlightItems (r : ReportData) : List Json :=
  match parseJson r.highlights with
  | some (Json.jarr xs) => xs
  | some v => [v]
  | none => [Json.jstr r.highlights]

/-- The combined highlights sequence before serialization: flatten, drop
falsy entries, keep the first 10 (source lines 917-929). -/
def combinedHighlightList (reports : List ReportData) : List Json :=
  ((reports.flatMap highlightItems).filter jsTruthy).take 10

/-- Model of `ReportExporter.generateCombinedHighlights` (source lines
916-930). -/
def generateCombinedHighlights (reports : List ReportData) : Str :=
  stringifyJson (Json.jarr (combinedHighlightList reports))

/-- Model of `ReportExporter.generateCombinedSummary` (source lines
912-914). -/
def generateCombinedSummary (reports : List ReportData) : Str :=
  ("This combined report includes ".toList) ++ (Nat.repr reports.length).toList ++
    (" individual reports covering various periods and activities. Each report has been analyzed and compiled with AI-generated insights and recommendations.".toList)

/-- Model of `ReportExporter.generateCombinedSuggestions` (source lines
932-939): every truthy suggestions field, double-newline separated, behind a
count-stating sentence. -/
def generateCombinedSuggestions (reports : List ReportData) : Str :=
  ("Based on analysis of ".toList) ++ (Nat.repr reports.length).toList ++
    (" reports:\n\n".toList) ++
    List.intercalate ("\n\n".toList) ((reports.map (fun r => r.suggestions)).filter strTruthy)

/-- The per-report sub-section of `generateCombinedContent` (source lines
888-908). -/
def combinedContentPiece (ld : Str → Str) (i : ℕ) (r : ReportData) : Str :=
  ("## Report ".toList) ++ (Nat.repr (i + 1)).toList ++ (": ".toList) ++ r.title ++
    ("\n\n**Type:** ".toList) ++ r.report_type ++
    ("\n**Generated:** ".toList) ++ ld r.generated_at ++
    ("\n\n### Summary\n".toList) ++ r.summary ++
    ("\n\n### Key Highlights\n".toList) ++ r.highlights ++
    ("\n\n### Content\n".toList) ++ r.content ++
    ("\n\n### Suggestions\n".toList) ++ r.suggestions ++
    ("\n\n---\n\n".toList)

/-- Index-carrying worker for `generateCombinedContent`. -/
def combinedContentGo (ld : Str → Str) : ℕ → List ReportData → List Str
  | _, [] => []
  | i, r :: rest => combinedContentPiece ld i r :: combinedContentGo ld (i + 1) rest

/-- Model of `ReportExporter.generateCombinedContent` (source lines
887-910): one markdown sub-section per report, joined with a newline. -/
def generateCombinedContent (ld : Str → Str) (reports : List ReportData) : Str :=
  List.intercalate ("\n".toList) (combinedContentGo ld 0 reports)

/-- Model of `ReportExporter.getEarliestDate` (source lines 941-948).  Each
report contributes `period_start || generated_at` (empty strings are falsy),
empty strings are filtered out, the remaining date strings are converted to
numeric timestamps (`toTime` models `Date#getTime` on a parseable date) and
the minimum is ISO-formatted (`fromIso` models
`new Date(ms).toISOString()`).  On an empty reports list `Math.min()` is
`Infinity` and `new Date(Infinity).toISOString()` throws a RangeError: that
is the `Except.error` case. -/
def getEarliestDate (toTime : Str → ℤ) (fromIso : ℤ → Str)
    (reports : List ReportData) : Except Unit Str :=
  let dates :=
    ((reports.map (fun r =>
        match r.period_start with
        | some s => if s.isEmpty then r.generated_at else s
        | none => r.generated_at)).filter strTruthy).map toTime
  match dates.min? with
  | some m => Except.ok (fromIso m)
  | none => Except.error ()

/-- Model of `ReportExporter.getLatestDate` (source lines 950-957),
symmetric to `getEarliestDate` with `period_end` and the maximum. -/
def getLatestDate (toTime : Str → ℤ) (fromIso : ℤ → Str)
    (reports : List ReportData) : Except Unit Str :=
  let dates :=
    ((reports.map (fun r =>
        match r.period_end with
        | some s => if s.isEmpty then r.generated_at else s
        | none => r.generated_at)).filter strTruthy).map toTime
  match dates.max? with
  | some m => Except.ok (fromIso m)
  | none => Except.error ()

/-- The combined-report record built by `ReportExporter.exportCombinedReport`
(source lines 820-831).  `now` models `Date.now()` (epoch milliseconds) and
`nowIso` models `new Date().toISOString()`.  The `reports.length > 0` guards
of the source are what keeps the empty-selection case away from the throwing
min/max date computation; an `Except.error` value models that RangeError
escaping. -/
def exportCombinedRecord (ld : Str → Str) (toTime : Str → ℤ) (fromIso : ℤ → Str)
    (now : ℕ) (nowIso : Str) (title : Str) (reports : List ReportData) :
    Except Unit ReportData := do
  let ps ←
    if reports.length > 0 then do
      let d ← getEarliestDate toTime fromIso reports
      pure (some d)
    else pure (none : Option Str)
  let pe ←
    if reports.length > 0 then do
      let d ← getLatestDate toTime fromIso reports
      pure (some d)
    else pure (none : Option Str)
  Except.ok
    { _id := ("combined-".toList) ++ (Nat.repr now).toList
      title := title
      report_type := ("combined".toList)
      content := generateCombinedContent ld reports
      summary := generateCombinedSummary reports
      highlights := generateCombinedHighlights reports
      suggestions := generateCombinedSuggestions reports
      generated_at := nowIso
      period_start := ps
      period_end := pe
      record_count := none }

instance : IsTotal CustomSection customLe :=
  ⟨fun a b => le_total a.order b.order⟩

instance : IsTrans CustomSection customLe :=
  ⟨fun _ _ _ h1 h2 => le_trans h1 h2⟩

/-- A well-formed sample report used by concrete witnesses. -/
def sampleReport : ReportData :=
  { _id := ("r1".toList)
    title := ("t".toList)
    report_type := ("weekly".toList)
    content := ("c".toList)
    summary := ("s".toList)
    highlights := ("h".toList)
    suggestions := ("g".toList)
    generated_at := ("2024-01-01".toList) }

/-- A report whose title and content are blank/whitespace-only. -/
def blankReport : ReportData :=
  { sampleReport with _id := ("rb".toList), title := (" ".toList), content := ("".toList) }

/-- Report whose highlights field holds the JSON array `["a","b"]`. -/
def hlReportA : ReportData :=
  { sampleReport with _id := ("ra".toList), highlights := ("[\"a\",\"b\"]".toList) }

/-- Report whose highlights field holds the JSON string `"c"`. -/
def hlReportB : ReportData :=
  { sampleReport with _id := ("rc".toList), highlights := ("\"c\"".toList) }

/-- The variable list of the C4 counterexample: `a` expands to a text that
is itself the placeholder of the later variable `b`. -/
def c4vars : List TemplateVariable :=
  [{ name := ("a".toList), defaultValue := ("\x7bb\x7d".toList) },
   { name := ("b".toList), defaultValue := ("c".toList) }]

/-- An export template with everything turned off - the baseline the sample
templates below are variations of. -/
def plainTemplate : ExportTemplate :=
  { header := { enabled := false, content := [], showDate := false }
    footer := { enabled := false, content := [], showGeneratedBy := false }
    sections :=
      { showExecutiveSummary := true
        showHighlights := true
        showDetailedContent := true
        showRecommendations := true
        customSections := [] }
    vars := [] }

/-- Template whose header is enabled with the show-date option on: its
markdown output embeds the current date. -/
def showDateTemplate : ExportTemplate :=
  { plainTemplate with
      header := { enabled := true, content := ("H".toList), showDate := true } }

/-- Custom section with `order` 1. -/
def customSecA : CustomSection :=
  { id := ("sa".toList), title := ("A".toList), content := ("alpha".toList), order := 1 }

/-- Custom section with `order` 2. -/
def customSecB : CustomSection :=
  { id := ("sb".toList), title := ("B".toList), content := ("beta".toList), order := 2 }

/-- Template carrying the custom sections in descending order `[2, 1]`, as
in the claims' concrete scenario. -/
def unsortedTemplate : ExportTemplate :=
  { plainTemplate with
      sections := { plainTemplate.sections with customSections := [customSecB, customSecA] } }

deriving instance DecidableEq for Except

/-- Export outcome used by the batch witnesses: every report whose id is
`bad` fails with message `boom`, every other one succeeds. -/
def sampleExportOutcome (r : ReportData) : Except Str Unit :=
  if r._id = ("bad".toList) then Except.error ("boom".toList) else Except.ok ()

/-- The failing report of the batch witnesses. -/
def failingReport : ReportData := { sampleReport with _id := ("bad".toList) }

/-- Closed form of the page-emitting loop: started at `heightLeft = hl`, it
runs `⌊hl / 295⌋ + 1` iterations when `hl ≥ 0` and none otherwise. -/
theorem pdfPageLoop_closed (hl : ℚ) :
    pdfPageLoop hl = if 0 ≤ hl then (Int.floor (hl / 295) + 1).toNat else 0 := by
  induction hl using pdfPageLoop.induct with
  | case1 hl h ih =>
    rw [pdfPageLoop, dif_pos h, if_pos h, ih]
    have hfl : Int.floor ((hl - 295) / 295) = Int.floor (hl / 295) - 1 := by
      rw [sub_div, div_self (by norm_num : (295 : ℚ) ≠ 0)]
      exact Int.floor_sub_one _
    by_cases h2 : (0 : ℚ) ≤ hl - 295
    · rw [if_pos h2, hfl]
      have h3 : 0 ≤ Int.floor ((hl - 295) / 295) := by
        apply Int.floor_nonneg.mpr
        positivity
      rw [hfl] at h3
      omega
    · rw [if_neg h2]
      have h4 : Int.floor (hl / 295) = 0 := by
        apply Int.floor_eq_zero_iff.mpr
        constructor
        · positivity
        · rw [div_lt_one (by norm_num : (0 : ℚ) < 295)]
          push_neg at h2
          linarith
      rw [h4]
      rfl
  | case2 hl h =>
    rw [pdfPageLoop, dif_neg h, if_neg h]

/-- Claim C3: the page loop of `exportToPDF` terminates for every finite
scaled bitmap height `h ≥ 0` (the model is a total function) and emits
exactly `1 + ⌊h / 295⌋` pages; in particular a height that is an exact
multiple `N * 295` of the page height yields `N + 1` pages - one trailing
band beyond the content - because the loop keeps iterating while the
remaining height is `≥ 0`. -/
theorem pdfPages_count (h : ℚ) (hh : 0 ≤ h) :
    pdfPages h = 1 + (Int.floor (h / 295)).toNat ∧
    ∀ N : ℕ, pdfPages ((N : ℚ) * 295) = N + 1 := by
  have main : ∀ g : ℚ, 0 ≤ g → pdfPages g = 1 + (Int.floor (g / 295)).toNat := by
    intro g hg
    rw [pdfPages, pdfPageLoop_closed]
    have hfl : Int.floor ((g - 295) / 295) = Int.floor (g / 295) - 1 := by
      rw [sub_div, div_self (by norm_num : (295 : ℚ) ≠ 0)]
      exact Int.floor_sub_one _
    by_cases h2 : (0 : ℚ) ≤ g - 295
    · rw [if_pos h2, hfl]
      have h3 : 0 ≤ Int.floor ((g - 295) / 295) := by
        apply Int.floor_nonneg.mpr
        positivity
      rw [hfl] at h3
      omega
    · rw [if_neg h2]
      have h4 : Int.floor (g / 295) = 0 := by
        apply Int.floor_eq_zero_iff.mpr
        constructor
        · positivity
        · rw [div_lt_one (by norm_num : (0 : ℚ) < 295)]
          push_neg at h2
          linarith
      rw [h4]
      rfl
  refine ⟨main h hh, fun N => ?_⟩
  have hN : (0 : ℚ) ≤ (N : ℚ) * 295 := by positivity
  rw [main _ hN]
  have : ((N : ℚ) * 295) / 295 = (N : ℚ) := by
    field_simp
  rw [this, Int.floor_natCast]
  omega

/-- Witness for C3 at the concrete heights 590 (a fractional-page example
would do equally) and the exact multiple `2 * 295`. -/
theorem pdfPages_count_witness :
    pdfPages 590 = 1 + (Int.floor ((590 : ℚ) / 295)).toNat ∧
    pdfPages (((2 : ℕ) : ℚ) * 295) = 2 + 1 :=
  ⟨(pdfPages_count 590 (by norm_num)).1, (pdfPages_count 590 (by norm_num)).2 2⟩

/-- The per-report pass contributes nothing when every report has a
non-blank title and non-blank content, whatever the starting index. -/
theorem perReportErrors_eq_nil (l : List ReportData)
    (h : ∀ r ∈ l, (jsTrim r.title).isEmpty = false ∧ (jsTrim r.content).isEmpty = false) :
    ∀ i, perReportErrors i l = [] := by
  induction l with
  | nil => intro i; rfl
  | cons r rest ih =>
    intro i
    have hr := h r (by simp)
    rw [perReportErrors, hr.1, hr.2]
    simp only [Bool.false_eq_true, if_false, List.nil_append]
    exact ih (fun x hx => h x (by simp [hx])) (i + 1)

/-- Claim C9: validation never throws (it is a total function into lists of
problem strings) and returns exactly the applicable problems - exactly one
empty-selection error for an empty selection, exactly one limit error for 51
otherwise-valid reports, exactly the two per-report errors for a single
report with blank title and blank content, and the empty list for 1 to 50
valid reports. -/
theorem validateReportsForExport_cases :
    (validateReportsForExport [] = [("No reports selected for export".toList)])
    ∧ (∀ reports : List ReportData, reports.length = 51 →
        (∀ r ∈ reports,
          (jsTrim r.title).isEmpty = false ∧ (jsTrim r.content).isEmpty = false) →
        validateReportsForExport reports =
          [("Too many reports selected. Maximum 50 reports allowed per batch".toList)])
    ∧ (∀ r : ReportData,
        (jsTrim r.title).isEmpty = true → (jsTrim r.content).isEmpty = true →
        validateReportsForExport [r] =
          [("Report 1 has no title".toList),
           ("Report \"".toList) ++ r.title ++ ("\" has no content".toList)])
    ∧ (∀ reports : List ReportData, 1 ≤ reports.length → reports.length ≤ 50 →
        (∀ r ∈ reports,
          (jsTrim r.title).isEmpty = false ∧ (jsTrim r.content).isEmpty = false) →
        validateReportsForExport reports = []) := by
  refine ⟨by rfl, fun reports hlen hvalid => ?_, fun r ht hc => ?_, fun reports h1 h50 hvalid => ?_⟩
  · rw [validateReportsForExport, perReportErrors_eq_nil reports hvalid 0, hlen]
    simp
  · rw [validateReportsForExport]
    rw [perReportErrors, ht, hc, perReportErrors]
    simp
    decide
  · rw [validateReportsForExport, perReportErrors_eq_nil reports hvalid 0]
    have hne : reports.length ≠ 0 := by omega
    have hle : ¬ reports.length > 50 := by omega
    simp [hne, hle]

/-- Witness for C9: the four scenarios instantiated with concrete reports -
the empty selection, 51 valid reports, one blank report, one valid report. -/
theorem validateReportsForExport_cases_witness :
    (validateReportsForExport [] = [("No reports selected for export".toList)])
    ∧ (validateReportsForExport (List.replicate 51 sampleReport) =
        [("Too many reports selected. Maximum 50 reports allowed per batch".toList)])
    ∧ (validateReportsForExport [blankReport] =
        [("Report 1 has no title".toList),
         ("Report \"".toList) ++ blankReport.title ++ ("\" has no content".toList)])
    ∧ (validateReportsForExport [sampleReport] = []) :=
  ⟨validateReportsForExport_cases.1,
   validateReportsForExport_cases.2.1 (List.replicate 51 sampleReport) (by decide) (by decide),
   validateReportsForExport_cases.2.2.1 blankReport (by decide) (by decide),
   validateReportsForExport_cases.2.2.2 [sampleReport] (by decide) (by decide) (by decide)⟩

/-- `chunks` is empty exactly on an empty input (or the degenerate `bs = 0`). -/
theorem chunks_eq_nil_iff (bs : ℕ) (l : List ReportData) :
    chunks bs l = [] ↔ (l = [] ∨ bs = 0) := by
  rw [chunks]
  by_cases h : l.isEmpty = true ∨ bs = 0
  · simp only [dif_pos h, true_iff]
    rcases h with h | h
    · exact Or.inl (List.isEmpty_iff.mp h)
    · exact Or.inr h
  · simp only [dif_neg h]
    constructor
    · intro hc
      exact absurd hc (List.cons_ne_nil _ _)
    · intro hc
      exfalso
      apply h
      rcases hc with hc | hc
      · exact Or.inl (by simp [hc])
      · exact Or.inr hc

/-- Concatenating the chunks gives back the original list. -/
theorem chunks_flatten (bs : ℕ) (hbs : 1 ≤ bs) (l : List ReportData) :
    (chunks bs l).flatten = l := by
  induction l using chunks.induct bs with
  | case1 l h =>
    rw [chunks, dif_pos h]
    rcases h with h | h
    · simp [List.isEmpty_iff.mp h]
    · omega
  | case2 l h ih =>
    rw [chunks, dif_neg h]
    rw [List.flatten_cons, ih]
    exact List.take_append_drop bs l

/-- Every chunk is non-empty and no longer than the batch size. -/
theorem chunks_mem_bounds (bs : ℕ) (hbs : 1 ≤ bs) (l : List ReportData) :
    ∀ c ∈ chunks bs l, c ≠ [] ∧ c.length ≤ bs := by
  induction l using chunks.induct bs with
  | case1 l h =>
    rw [chunks, dif_pos h]
    simp
  | case2 l h ih =>
    rw [chunks, dif_neg h]
    push_neg at h
    intro c hc
    rcases List.mem_cons.mp hc with hc | hc
    · subst hc
      constructor
      · simp only [ne_eq, List.take_eq_nil_iff]
        push_neg
        refine ⟨by omega, ?_⟩
        intro he
        rw [he] at h
        simp at h
      · simp
    · exact ih c hc

/-- Every chunk except possibly the last has length exactly `bs`. -/
theorem chunks_dropLast_length (bs : ℕ) (hbs : 1 ≤ bs) (l : List ReportData) :
    ∀ c ∈ (chunks bs l).dropLast, c.length = bs := by
  induction l using chunks.induct bs with
  | case1 l h =>
    rw [chunks, dif_pos h]
    simp
  | case2 l h ih =>
    rw [chunks, dif_neg h]
    push_neg at h
    intro c hc
    by_cases hrest : chunks bs (l.drop bs) = []
    · rw [hrest] at hc
      simp at hc
    · rw [List.dropLast_cons_of_ne_nil hrest] at hc
      rcases List.mem_cons.mp hc with hc | hc
      · subst hc
        have hd : l.drop bs ≠ [] := by
          intro he
          exact hrest (by rw [he]; rw [chunks_eq_nil_iff]; exact Or.inl rfl)
        have hlen : bs < l.length := by
          by_contra hb
          push_neg at hb
          exact hd (List.drop_eq_nil_of_le hb)
        rw [List.length_take]
        omega
      · exact ih c hc

/-- Running the per-report task over a list adds its length to
`successful + failed` and keeps the error list and the `onError` call list
in step with the `failed` counter. -/
theorem processReport_foldl_counts (d : ReportData → Except Str Unit)
    (l : List ReportData) : ∀ st : BatchRunState,
    ((l.foldl (processReport d) st).successful + (l.foldl (processReport d) st).failed
      = st.successful + st.failed + l.length)
    ∧ ((l.foldl (processReport d) st).errors.length + st.failed
      = (l.foldl (processReport d) st).failed + st.errors.length)
    ∧ ((l.foldl (processReport d) st).onErrorCalls.length + st.failed
      = (l.foldl (processReport d) st).failed + st.onErrorCalls.length) := by
  induction l with
  | nil =>
    intro st
    simp only [List.foldl_nil, List.length_nil]
    omega
  | cons r rest ih =>
    intro st
    rw [List.foldl_cons]
    have := ih (processReport d st r)
    rcases this with ⟨i1, i2, i3⟩
    cases hr : d r with
    | ok u =>
      simp only [processReport, hr, List.length_cons] at i1 i2 i3 ⊢
      refine ⟨by omega, by omega, by omega⟩
    | error m =>
      simp only [processReport, hr, List.length_append, List.length_cons,
        List.length_nil] at i1 i2 i3 ⊢
      refine ⟨by omega, by omega, by omega⟩

/-- A run over reports that all export successfully only increments the
`successful` counter. -/
theorem processReport_foldl_allOk (d : ReportData → Except Str Unit)
    (l : List ReportData) (h : ∀ r ∈ l, d r = Except.ok ()) :
    ∀ st : BatchRunState,
    l.foldl (processReport d) st = { st with successful := st.successful + l.length } := by
  induction l with
  | nil => intro st; simp
  | cons r rest ih =>
    intro st
    rw [List.foldl_cons]
    have hr : d r = Except.ok () := h r (by simp)
    rw [ih (fun x hx => h x (by simp [hx]))]
    simp only [processReport, hr, List.length_cons]
    congr 1
    omega

/-- With a positive batch size, the chunked sequential fold of `batchExport`
is the plain fold over the input reports. -/
theorem batchExport_eq_foldl (d : ReportData → Except Str Unit) (bs : ℕ)
    (hbs : 1 ≤ bs) (reports : List ReportData) :
    batchExport d bs reports = reports.foldl (processReport d) ⟨0, 0, [], []⟩ := by
  rw [batchExport, ← List.foldl_flatten, chunks_flatten bs hbs]

/-- Unfolding step of `chunks` on a non-empty list with positive batch size. -/
theorem chunks_cons_of (bs : ℕ) (l : List ReportData) (h1 : l ≠ []) (h2 : bs ≠ 0) :
    chunks bs l = l.take bs :: chunks bs (l.drop bs) := by
  rw [chunks, dif_neg]
  push_neg
  exact ⟨by simp [h1], h2⟩

/-- Claim C1: `batchExport` partitions the reports into consecutive chunks
of `batchSize` - the chunks concatenate back to the input, every chunk is
non-empty and at most `batchSize` long, every chunk but the last is exactly
`batchSize` long, and 12 reports with `batchSize = 5` give chunk lengths
`[5, 5, 2]` - and for every export outcome the returned result satisfies
`successful + failed = number of input reports` with exactly `failed`
entries in the errors list. -/
theorem batchExport_partition_and_totals (d : ReportData → Except Str Unit) (bs : ℕ)
    (reports : List ReportData) (hbs : 1 ≤ bs) :
    ((chunks bs reports).flatten = reports)
    ∧ (∀ c ∈ chunks bs reports, c ≠ [] ∧ c.length ≤ bs)
    ∧ (∀ c ∈ (chunks bs reports).dropLast, c.length = bs)
    ∧ (reports.length = 12 → bs = 5 → (chunks bs reports).map List.length = [5, 5, 2])
    ∧ ((batchExport d bs reports).successful + (batchExport d bs reports).failed
        = reports.length)
    ∧ ((batchExport d bs reports).errors.length = (batchExport d bs reports).failed) := by
  have hcounts := processReport_foldl_counts d reports (⟨0, 0, [], []⟩ : BatchRunState)
  rw [← batchExport_eq_foldl d bs hbs] at hcounts
  refine ⟨chunks_flatten bs hbs reports, chunks_mem_bounds bs hbs reports,
    chunks_dropLast_length bs hbs reports, fun h12 hb5 => ?_, ?_, ?_⟩
  · subst hb5
    have hne : reports ≠ [] := by
      intro h
      rw [h] at h12
      simp at h12
    have d1 : (reports.drop 5).length = 7 := by simp [h12]
    have d2 : ((reports.drop 5).drop 5).length = 2 := by simp [List.length_drop, h12]
    have hne1 : reports.drop 5 ≠ [] := by
      intro h
      rw [h] at d1
      simp at d1
    have hne2 : (reports.drop 5).drop 5 ≠ [] := by
      intro h
      rw [h] at d2
      simp at d2
    have z : ((reports.drop 5).drop 5).drop 5 = [] := by
      apply List.drop_eq_nil_of_le
      omega
    rw [chunks_cons_of 5 reports hne (by omega),
      chunks_cons_of 5 _ hne1 (by omega),
      chunks_cons_of 5 _ hne2 (by omega), z,
      (chunks_eq_nil_iff 5 []).mpr (Or.inl rfl)]
    simp [List.length_take, h12, d1, d2]
  · have h1 := hcounts.1
    simpa using h1
  · have h2 := hcounts.2.1
    simp at h2
    omega

/-- Witness for C1: 12 identical reports, batch size 5, under the sample
export outcome. -/
theorem batchExport_partition_and_totals_witness :
    ((batchExport sampleExportOutcome 5 (List.replicate 12 sampleReport)).successful
      + (batchExport sampleExportOutcome 5 (List.replicate 12 sampleReport)).failed
      = (List.replicate 12 sampleReport).length)
    ∧ ((chunks 5 (List.replicate 12 sampleReport)).map List.length = [5, 5, 2])
    ∧ ((batchExport sampleExportOutcome 5 (List.replicate 12 sampleReport)).errors.length
      = (batchExport sampleExportOutcome 5 (List.replicate 12 sampleReport)).failed) :=
  ⟨(batchExport_partition_and_totals sampleExportOutcome 5
      (List.replicate 12 sampleReport) (by decide)).2.2.2.2.1,
   (batchExport_partition_and_totals sampleExportOutcome 5
      (List.replicate 12 sampleReport) (by decide)).2.2.2.1 (by decide) rfl,
   (batchExport_partition_and_totals sampleExportOutcome 5
      (List.replicate 12 sampleReport) (by decide)).2.2.2.2.2⟩

/-- Claim C2: when exactly one report's export fails (with message `m`)
among `pre ++ bad :: post` and every other report's export succeeds, the
batch result - which `batchExport` returns rather than raising, the failure
being contained in the per-item task - has `failed = 1`,
`successful = n - 1`, an errors list holding exactly one entry with the
failing report's id and message, and exactly one `onError` invocation,
carrying that report's id; the sibling reports before and after the failing
one are all exported (they make up the `n - 1` successes). -/
theorem batchExport_single_failure (d : ReportData → Except Str Unit) (bs : ℕ)
    (pre post : List ReportData) (bad : ReportData) (m : Str) (hbs : 1 ≤ bs)
    (hbad : d bad = Except.error m)
    (hok : ∀ r ∈ pre ++ post, d r = Except.ok ()) :
    ((batchExport d bs (pre ++ bad :: post)).failed = 1)
    ∧ ((batchExport d bs (pre ++ bad :: post)).successful
        = (pre ++ bad :: post).length - 1)
    ∧ ((batchExport d bs (pre ++ bad :: post)).errors = [(bad._id, m)])
    ∧ ((batchExport d bs (pre ++ bad :: post)).onErrorCalls = [bad._id]) := by
  have hokPre : ∀ r ∈ pre, d r = Except.ok () := fun r hr => hok r (by simp [hr])
  have hokPost : ∀ r ∈ post, d r = Except.ok () := fun r hr => hok r (by simp [hr])
  rw [batchExport_eq_foldl d bs hbs, List.foldl_append,
    processReport_foldl_allOk d pre hokPre, List.foldl_cons]
  have hstep :
      processReport d
        { (⟨0, 0, [], []⟩ : BatchRunState) with successful := 0 + pre.length } bad
        = ⟨pre.length, 1, [(bad._id, m)], [bad._id]⟩ := by
    simp [processReport, hbad]
  rw [hstep, processReport_foldl_allOk d post hokPost]
  refine ⟨rfl, ?_, rfl, rfl⟩
  simp only [List.length_append, List.length_cons]
  omega

/-- Witness for C2: the middle report of three fails under the sample
export outcome, the two siblings succeed. -/
theorem batchExport_single_failure_witness :
    ((batchExport sampleExportOutcome 5
        ([sampleReport] ++ failingReport :: [hlReportA])).failed = 1)
    ∧ ((batchExport sampleExportOutcome 5
        ([sampleReport] ++ failingReport :: [hlReportA])).successful
        = ([sampleReport] ++ failingReport :: [hlReportA]).length - 1)
    ∧ ((batchExport sampleExportOutcome 5
        ([sampleReport] ++ failingReport :: [hlReportA])).errors
        = [(failingReport._id, ("boom".toList))])
    ∧ ((batchExport sampleExportOutcome 5
        ([sampleReport] ++ failingReport :: [hlReportA])).onErrorCalls
        = [failingReport._id]) :=
  batchExport_single_failure sampleExportOutcome 5 [sampleReport] [hlReportA]
    failingReport ("boom".toList) (by decide) (by decide) (by decide)

/-- A replacement string without `$` is inserted verbatim by the
`GetSubstitution` expansion. -/
theorem expandRepl_eq_of_no_dollar (matched pre post : Str) :
    ∀ rep : Str, rep.all (fun c => c ≠ '$') = true →
    expandRepl matched pre post rep = rep := by
  intro rep
  induction rep with
  | nil => intro _; rfl
  | cons c rest ih =>
    intro h
    rw [List.all_cons] at h
    have hc : ¬ c = '$' := by
      have := Bool.and_elim_left h
      simpa using this
    have hrest := Bool.and_elim_right h
    rw [expandRepl.eq_def]
    dsimp only
    rw [if_neg hc, ih hrest]

/-- With a `$`-free replacement string, the regex-replace worker equals the
verbatim-replacement worker. -/
theorem replaceAllGo_eq_literal (orig pat rep : Str)
    (h : rep.all (fun c => c ≠ '$') = true) :
    ∀ fuel i, replaceAllGo orig pat rep fuel i = literalReplaceGo orig pat rep fuel i := by
  intro fuel
  induction fuel with
  | zero => intro i; rfl
  | succ n ih =>
    intro i
    cases hf : findAt pat (orig.drop i) i with
    | none => simp only [replaceAllGo, literalReplaceGo, hf]
    | some j =>
      simp only [replaceAllGo, literalReplaceGo, hf]
      rw [expandRepl_eq_of_no_dollar _ _ _ rep h, ih]

/-- Counterexample to claim C4 as stated: on text `{a}` with variables
`a ↦ {b}` (listed first) and `b ↦ c` (listed later), the code substitutes
the inserted `{b}` in the later variable's pass and returns `c`, whereas the
claimed single-pass semantics leaves `{b}` verbatim - so substitution is
not single-pass when `otherName` occurs later in the variable list. -/
theorem replaceVariables_not_single_pass :
    (replaceVariables ("\x7ba\x7d".toList) c4vars = ("c".toList))
    ∧ (specSinglePassSubstitute c4vars ("\x7ba\x7d".toList) = ("\x7bb\x7d".toList))
    ∧ (replaceVariables ("\x7ba\x7d".toList) c4vars
        ≠ specSinglePassSubstitute c4vars ("\x7ba\x7d".toList)) := by
  refine ⟨by decide, by decide, by decide⟩

/-- Claim C4 as amended: restricted to variable names made of alphanumeric
characters (which the regex built from the name then matches literally) and
to `$`-free default values (which the replacement then inserts verbatim),
`replaceVariables` performs, for each variable in list order, a global,
case-sensitive, literal replacement of `{name}` by `defaultValue` over the
accumulated result - so unmatched placeholders survive verbatim and a
default value containing `{otherName}` is substituted further exactly when
`otherName` appears later in the list, and is left verbatim otherwise. -/
theorem replaceVariables_eq_literalSubstitute (content : Str)
    (vs : List TemplateVariable)
    (h : ∀ v ∈ vs, v.name.all Char.isAlphanum = true
      ∧ v.defaultValue.all (fun c => c ≠ '$') = true) :
    replaceVariables content vs = literalSubstitute content vs := by
  induction vs generalizing content with
  | nil => rfl
  | cons v rest ih =>
    rw [replaceVariables, literalSubstitute, List.foldl_cons]
    have hv := (h v (by simp)).2
    have hstep :
        replaceAllJs content ("\x7b".toList ++ v.name ++ "\x7d".toList) v.defaultValue
          = literalReplaceAll content ("\x7b".toList ++ v.name ++ "\x7d".toList)
              v.defaultValue := by
      rw [replaceAllJs, literalReplaceAll]
      by_cases hp : ("\x7b".toList ++ v.name ++ "\x7d".toList).isEmpty = true
      · rw [if_pos hp, if_pos hp]
      · rw [if_neg hp, if_neg hp, replaceAllGo_eq_literal _ _ _ hv]
    rw [hstep]
    exact ih _ (fun x hx => h x (by simp [hx]))

/-- Witness for the amended C4 on a concrete alphanumeric, `$`-free
variable list. -/
theorem replaceVariables_eq_literalSubstitute_witness :
    replaceVariables ("x \x7ba\x7d \x7bz\x7d \x7ba\x7d".toList)
        [{ name := ("a".toList), defaultValue := ("V".toList) }]
      = literalSubstitute ("x \x7ba\x7d \x7bz\x7d \x7ba\x7d".toList)
        [{ name := ("a".toList), defaultValue := ("V".toList) }] :=
  replaceVariables_eq_literalSubstitute _ _ (by decide)

/-- Claim C5: for every non-empty list of reports the combined highlights
sequence - each source highlights field JSON-parsed when possible and
otherwise treated as the one-element array of the raw string, flattened one
level, falsy entries dropped - is capped at 10 entries before being
re-serialized as a JSON array string; and combining the concrete reports
with highlights `["a","b"]` and `"c"` yields a string that parses back to
exactly `["a","b","c"]`. -/
theorem generateCombinedHighlights_spec (reports : List ReportData)
    (hne : reports ≠ []) :
    ((combinedHighlightList reports).length ≤ 10)
    ∧ (generateCombinedHighlights [hlReportA, hlReportB] = ("[\"a\",\"b\",\"c\"]".toList))
    ∧ (parseJson (generateCombinedHighlights [hlReportA, hlReportB])
        = some (Json.jarr
            [Json.jstr ("a".toList), Json.jstr ("b".toList), Json.jstr ("c".toList)])) := by
  refine ⟨?_, by rfl, by rfl⟩
  rw [combinedHighlightList]
  exact List.length_take_le 10 _

/-- Witness for C5 at the two concrete reports of the claim. -/
theorem generateCombinedHighlights_spec_witness :
    (combinedHighlightList [hlReportA, hlReportB]).length ≤ 10 :=
  (generateCombinedHighlights_spec [hlReportA, hlReportB] (by decide)).1

/-- Claim C6: building the combined record from an empty selection does not
throw - the `reports.length > 0` guards keep the empty case away from the
min/max date computation (whose unguarded evaluation would be the
`Except.error` branch of `getEarliestDate`/`getLatestDate`) - the
count-dependent summary and suggestions state a count of 0, and
`period_start`/`period_end` are left absent instead of computed.  The
statement quantifies over every date-parsing/formatting environment and
clock value. -/
theorem exportCombinedRecord_empty (ld : Str → Str) (toTime : Str → ℤ)
    (fromIso : ℤ → Str) (now : ℕ) (nowIso : Str) (title : Str) :
    exportCombinedRecord ld toTime fromIso now nowIso title [] =
      Except.ok
        { _id := ("combined-".toList) ++ (Nat.repr now).toList
          title := title
          report_type := ("combined".toList)
          content := []
          summary := ("This combined report includes 0 individual reports covering various periods and activities. Each report has been analyzed and compiled with AI-generated insights and recommendations.".toList)
          highlights := ("[]".toList)
          suggestions := ("Based on analysis of 0 reports:\n\n".toList)
          generated_at := nowIso
          period_start := none
          period_end := none
          record_count := none } := by
  rfl

/-- Counterexample to claim C7 as stated: with a template whose header
enables the show-date option, two invocations of the markup renderer on the
identical report and template but on different days (different current-date
strings) produce different output - the output is not a function of report
and template alone. -/
theorem generateTemplatedMarkdown_not_time_invariant :
    generateTemplatedMarkdown (fun s => s) sampleReport showDateTemplate
        ("12/31/2024".toList)
      ≠ generateTemplatedMarkdown (fun s => s) sampleReport showDateTemplate
        ("1/1/2025".toList) := by
  decide

/-- Claim C7 as amended: the markup renderer is a pure function of the
report, the template, the locale date formatter and the current date; in
particular whenever the template's header is disabled or does not enable
show-date - the only place the current date enters - the output is
independent of the current date, so invocations at different times yield
the identical string.  (The template-free renderer `generateMarkdown` reads
no clock at all, so its determinism is immediate from its signature.) -/
theorem generateTemplatedMarkdown_time_invariant (ld : Str → Str) (r : ReportData)
    (t : ExportTemplate) (now now' : Str)
    (h : t.header.enabled = false ∨ t.header.showDate = false) :
    generateTemplatedMarkdown ld r t now = generateTemplatedMarkdown ld r t now' := by
  rcases h with h | h <;> simp [generateTemplatedMarkdown, h]

/-- Witness for the amended C7: a template without show-date rendered under
two different current dates. -/
theorem generateTemplatedMarkdown_time_invariant_witness :
    generateTemplatedMarkdown (fun s => s) sampleReport plainTemplate
        ("12/31/2024".toList)
      = generateTemplatedMarkdown (fun s => s) sampleReport plainTemplate
        ("1/1/2025".toList) :=
  generateTemplatedMarkdown_time_invariant (fun s => s) sampleReport plainTemplate
    ("12/31/2024".toList) ("1/1/2025".toList) (Or.inl rfl)

/-- Claim C8: the templated markdown decomposes as preamble, then the four
fixed sections (each present exactly when its toggle is true, in the fixed
order - that is the shape of `mdFixedSections`), then the custom-sections
block, then the footer; the custom block renders the custom sections sorted
ascending by `order` (a permutation of the template's list); and on the
concrete template whose custom sections are listed `[order 2, order 1]` the
`order 1` section is rendered first. -/
theorem generateTemplatedMarkdown_section_order (ld : Str → Str) (r : ReportData)
    (t : ExportTemplate) (now : Str) :
    (generateTemplatedMarkdown ld r t now
      = mdPreamble ld r t now ++ mdFixedSections r t ++ mdCustomBlock t ++ mdFooterBlock t)
    ∧ List.Sorted customLe (sortCustoms t.sections.customSections)
    ∧ (sortCustoms t.sections.customSections).Perm t.sections.customSections
    ∧ (mdCustomBlock unsortedTemplate = ("## A\n\nalpha\n\n## B\n\nbeta\n\n".toList)) := by
  refine ⟨?_, ?_, List.perm_insertionSort customLe _, by decide⟩
  · simp only [generateTemplatedMarkdown, mdPreamble, mdFixedSections, mdCustomBlock,
      mdFooterBlock, List.append_assoc]
  · exact List.sorted_insertionSort customLe _

/-- Claim C10: after a templated markdown render the template state carries
its custom sections sorted ascending by `order` (the in-place
`Array.prototype.sort`), the same holds for the templated HTML renderer, the
report comes back unchanged from both, the post-state is sorted - and on the
concrete template listed `[order 2, order 1]` the post-state differs from
the template passed in. -/
theorem templatedRenderers_sort_in_place (ld : Str → Str) (r : ReportData)
    (t : ExportTemplate) (now : Str) :
    ((generateTemplatedMarkdownSt ld r t now).2.1.sections.customSections
      = sortCustoms t.sections.customSections)
    ∧ ((generateTemplatedMarkdownSt ld r t now).2.2 = r)
    ∧ ((generateTemplatedReportHTMLSt r t).1.sections.customSections
      = sortCustoms t.sections.customSections)
    ∧ ((generateTemplatedReportHTMLSt r t).2 = r)
    ∧ List.Sorted customLe
        ((generateTemplatedMarkdownSt ld r t now).2.1.sections.customSections)
    ∧ ((generateTemplatedReportHTMLSt sampleReport unsortedTemplate).1.sections.customSections
      ≠ unsortedTemplate.sections.customSections) := by
  refine ⟨rfl, rfl, rfl, rfl, ?_, by decide⟩
  exact List.sorted_insertionSort customLe _
